import Mathlib

/-!
Shallow embedding of `src/app.py` (NBA-Weekly): the resilient request
executor `safe_get` and the paginated collector `fetch_games`, together
with proofs of the specification's claims about them.

Machine-level conventions of the embedding:
* one transport attempt (`requests.get` + status check + `r.json()`) is an
  oracle `Nat → Attempt β`: attempt `i` either yields a decoded 2xx body,
  a 429 rate-limit response, or raises an exception carrying a message
  (network errors, non-2xx via `raise_for_status`, JSON decode errors);
* `time.sleep(backoff ** i)` is recorded in a trace of rational durations
  (`backoff` = 1.8 = 9/5);
* the upstream server is an oracle `Request → Payload`; JSON field
  presence is `Option` (outer layer: the key exists; inner layer, where
  present: null vs. value), exactly the distinctions `payload.get`,
  `meta.get` and `pandas.json_normalize` react to;
* the `while True:` pagination loop is run on fuel; exhausted fuel models
  a run that has not terminated within that many iterations;
* pandas operations are embedded per their semantics on the fixed column
  set the program touches: `json_normalize` column presence, `DataFrame.get`
  with a string default (which returns that plain string when the column is
  absent, so the subsequent `.fillna` raises `AttributeError`),
  `sort_values` with `na_position="last"`, and column selection;
* timezone conversion (`pd.to_datetime(..., errors="coerce", utc=True)`
  followed by `tz_convert`/`strftime`) is an abstract parameter
  `localize : String → Option String` (`none` = unparseable, i.e. `NaT`,
  whose `strftime` yields null).
-/

namespace NBAWeekly

/-- Outcome of one transport attempt inside `safe_get`'s `try`:
a decoded 2xx body, an HTTP 429 response, or a raised exception
(network error, timeout, non-2xx status raised by `raise_for_status`,
or a JSON decode failure), carrying its message. -/
inductive Attempt (β : Type) where
  | ok (body : β)
  | rate429
  | exn (msg : String)
deriving DecidableEq, Repr

/-- Result of running `safe_get`: the returned decoded body or the raised
`RuntimeError` payload (total tries, `last_err`), plus the trace of
`time.sleep` durations and the number of transport attempts made. -/
structure GetResult (β : Type) where
  result : Except (Nat × Option String) β
  sleeps : List ℚ
  calls : Nat
deriving Repr

/-- The message of the `RuntimeError` raised by `safe_get` on exhaustion:
`f"Request failed after {retries} tries: {last_err}"`; Python renders a
still-`None` `last_err` as the string `"None"`. -/
def failureMessage (tries : Nat) (lastErr : Option String) : String :=
  "Request failed after " ++ toString tries ++ " tries: " ++
    (match lastErr with
     | none => "None"
     | some s => s)

/-- The `for i in range(retries)` loop of `safe_get`, structurally recursive
on the number of remaining iterations; `i` is the current attempt index,
`lastErr` the `last_err` variable, `sleeps` the sleep trace so far.
A 429 sleeps `backoff ** i` and continues without touching `last_err`;
an exception records itself as `last_err` and sleeps `backoff ** i`;
a decoded 2xx body returns immediately. After the loop the `RuntimeError`
carries the total try count and `last_err`. -/
def safeGetLoop {β : Type} (transport : Nat → Attempt β) (backoff : ℚ) :
    Nat → Nat → Option String → List ℚ → GetResult β
  | 0, i, lastErr, sleeps => ⟨.error (i, lastErr), sleeps, i⟩
  | remaining + 1, i, lastErr, sleeps =>
    match transport i with
    | .ok b => ⟨.ok b, sleeps, i + 1⟩
    | .rate429 => safeGetLoop transport backoff remaining (i + 1) lastErr (sleeps ++ [backoff ^ i])
    | .exn m => safeGetLoop transport backoff remaining (i + 1) (some m) (sleeps ++ [backoff ^ i])

/-- Embeds `safe_get(url, params, headers, timeout=20, retries=4, backoff=1.8)`:
runs the retry loop from attempt 0 with `last_err = None`. The URL,
params, headers and timeout only shape the transport oracle, so they are
absorbed into it. -/
def safe_get {β : Type} (transport : Nat → Attempt β) (retries : Nat := 4)
    (backoff : ℚ := 9 / 5) : GetResult β :=
  safeGetLoop transport backoff retries 0 none []

/-- An attempt outcome counts as failing when it is not a decoded 2xx body. -/
def Attempt.fails {β : Type} : Attempt β → Prop
  | .ok _ => False
  | .rate429 => True
  | .exn _ => True

instance {β : Type} : DecidablePred (Attempt.fails (β := β)) := by
  intro a
  cases a <;> simp [Attempt.fails] <;> infer_instance

/-- The value `last_err` holds after attempts `0, …, n-1` have all failed:
the message of the most recent exception, and still `none` when every
failure so far was a 429 (which `safe_get` never records). -/
def lastExnBefore {β : Type} (transport : Nat → Attempt β) : Nat → Option String
  | 0 => none
  | n + 1 =>
    match transport n with
    | .exn m => some m
    | _ => lastExnBefore transport n

/-! ### Upstream payloads and the pagination loop of `fetch_games` -/

/-- The `meta` object of a page: `meta.get("next_cursor")` is `None` when
the key is absent or null, an integer-like token otherwise. -/
structure Meta where
  next_cursor : Option Int
deriving DecidableEq, Repr

/-- One raw game entry as flattened by `pandas.json_normalize`: for each
column of the fixed schema the program touches, the outer `Option` is
presence of the key path in the JSON (a column exists in the normalized
frame iff at least one row has the path), the inner `Option` is null vs.
value. All other upstream fields are dropped by the `keep` selection and
never influence the program, so they are not modelled. -/
structure RawGame where
  gid : Option (Option Int)
  gdate : Option (Option String)
  gdatetime : Option (Option String)
  gstatus : Option (Option String)
  gpostseason : Option (Option Bool)
  visitorFullName : Option (Option String)
  visitorAbbr : Option (Option String)
  visitorScore : Option (Option Int)
  homeFullName : Option (Option String)
  homeAbbr : Option (Option String)
  homeScore : Option (Option Int)
deriving DecidableEq, Repr

/-- A decoded page body: `payload.get("data", [])` yields `[]` when the
`data` key is absent; `payload.get("meta", {}) or {}` yields the empty
object when `meta` is absent (`none`) or null (`some none`). -/
structure Payload where
  data : Option (List RawGame)
  meta : Option (Option Meta)
deriving DecidableEq, Repr

/-- One executor request issued by the pagination loop: the `params`
dictionary `{start_date, end_date, per_page, cursor}`. -/
structure Request where
  start_date : String
  end_date : String
  per_page : Nat
  cursor : Int
deriving DecidableEq, Repr

/-- Computes `meta = payload.get("meta", {}) or {}` followed by
`meta.get("next_cursor")`: absent `meta`, null `meta`, and a `meta`
object without the key all give `None`. -/
def nextCursorOf (p : Payload) : Option Int :=
  match p.meta with
  | some (some m) => m.next_cursor
  | _ => none

/-- Models `rows.extend(payload.get("data", []))`: the rows a page contributes. -/
def dataOf (p : Payload) : List RawGame :=
  p.data.getD []

/-- The `while True:` pagination loop of `fetch_games`, on fuel.
Returns the accumulated rows (`none` when the loop has not terminated
within `fuel` iterations) together with the trace of requests issued.
Each iteration issues one executor request for the current cursor,
extends `rows` with the page's data, and either breaks (no `next_cursor`)
or continues from the server-supplied cursor — unconditionally. -/
def collectLoop (respond : Request → Payload) (sd ed : String) (pp : Nat) :
    Nat → Int → List RawGame → List Request → Option (List RawGame) × List Request
  | 0, _, _, reqs => (none, reqs)
  | fuel + 1, cursor, rows, reqs =>
    let req : Request := ⟨sd, ed, pp, cursor⟩
    let p := respond req
    let rows' := rows ++ dataOf p
    let reqs' := reqs ++ [req]
    match nextCursorOf p with
    | none => (some rows', reqs')
    | some c => collectLoop respond sd ed pp fuel c rows' reqs'

/-- The collection phase of `fetch_games`: cursor starts at 0, `rows` and
the request trace start empty. -/
def collectGames (respond : Request → Payload) (sd ed : String) (pp : Nat)
    (fuel : Nat) : Option (List RawGame) × List Request :=
  collectLoop respond sd ed pp fuel 0 [] []

/-! ### Normalization: tipoff conversion, matchup, column keep, sort -/

/-- A column of the fixed schema exists in the `json_normalize` output iff
some row has the key path (even with a null value). -/
def colPresent (rows : List RawGame) (f : RawGame → Option (Option String)) : Prop :=
  ∃ r ∈ rows, (f r).isSome

instance (rows : List RawGame) (f : RawGame → Option (Option String)) :
    Decidable (colPresent rows f) := by
  unfold colPresent
  infer_instance

/-- Presence of the integer-valued columns (`id`, scores). -/
def colPresentI (rows : List RawGame) (f : RawGame → Option (Option Int)) : Prop :=
  ∃ r ∈ rows, (f r).isSome

instance (rows : List RawGame) (f : RawGame → Option (Option Int)) :
    Decidable (colPresentI rows f) := by
  unfold colPresentI
  infer_instance

/-- Presence of the boolean-valued `postseason` column. -/
def colPresentB (rows : List RawGame) (f : RawGame → Option (Option Bool)) : Prop :=
  ∃ r ∈ rows, (f r).isSome

instance (rows : List RawGame) (f : RawGame → Option (Option Bool)) :
    Decidable (colPresentB rows f) := by
  unfold colPresentB
  infer_instance

/-- One row of the final frame, holding a cell for every column of the
`keep` list; which of these cells are actual columns of the result is
recorded separately in `FetchResult.cols`. -/
structure OutRow where
  oid : Option Int
  odate : Option String
  tipoff_local : Option String
  ostatus : Option String
  opostseason : Option Bool
  ovisitorAbbr : Option String
  ovisitorScore : Option Int
  ohomeAbbr : Option String
  ohomeScore : Option Int
  matchup : String
deriving DecidableEq, Repr

/-- The returned DataFrame: its column labels in order, and its rows. -/
structure FetchResult where
  cols : List String
  rows : List OutRow
deriving DecidableEq, Repr

/-- The fixed `keep` list of `fetch_games`. -/
def keepList : List String :=
  ["id", "date", "tipoff_local", "status", "postseason",
   "visitor_team.abbreviation", "visitor_team_score",
   "home_team.abbreviation", "home_team_score", "matchup"]

/-- Which columns of the `keep` list survive
`df[[c for c in keep if c in df.columns]]`: `tipoff_local` and `matchup`
are assigned unconditionally just before, every other column exists iff
the upstream data carried the corresponding key path in some row. -/
def colKept (rows : List RawGame) : String → Bool
  | "id" => decide (colPresentI rows (·.gid))
  | "date" => decide (colPresent rows (·.gdate))
  | "tipoff_local" => true
  | "status" => decide (colPresent rows (·.gstatus))
  | "postseason" => decide (colPresentB rows (·.gpostseason))
  | "visitor_team.abbreviation" => decide (colPresent rows (·.visitorAbbr))
  | "visitor_team_score" => decide (colPresentI rows (·.visitorScore))
  | "home_team.abbreviation" => decide (colPresent rows (·.homeAbbr))
  | "home_team_score" => decide (colPresentI rows (·.homeScore))
  | "matchup" => true
  | _ => false

/-- Models `df["tipoff_local"]`: when the `datetime` column exists, each cell is
the localized string of that row's timestamp (`none` for a null or
unparseable timestamp, via `errors="coerce"`); when the column does not
exist the cell is `None` for every row. -/
def tipoffCell (localize : String → Option String) (rows : List RawGame)
    (r : RawGame) : Option String :=
  if colPresent rows (·.gdatetime) then r.gdatetime.join.bind localize else none

/-- Models `df["matchup"]` for one row, given both full-name columns exist:
`fillna("")` turns a null (or row-absent) name into the empty string and
the segments are joined by `" @ "`. -/
def matchupOf (r : RawGame) : String :=
  (r.visitorFullName.join.getD "") ++ " @ " ++ (r.homeFullName.join.getD "")

/-- The cells of one final-frame row. -/
def mkOutRow (localize : String → Option String) (rows : List RawGame)
    (r : RawGame) : OutRow :=
  ⟨r.gid.join, r.gdate.join, tipoffCell localize rows r, r.gstatus.join,
   r.gpostseason.join, r.visitorAbbr.join, r.visitorScore.join,
   r.homeAbbr.join, r.homeScore.join, matchupOf r⟩

/-- Sort key of one cell for `sort_values(..., ascending=True)` with the
default `na_position="last"`: a missing value (`NaN`) sorts after every
string, and ties among missing values fall through to the next key. -/
def naKey : Option String → Bool ×ₗ String
  | none => toLex (true, "")
  | some s => toLex (false, s)

/-- Lexicographic sort key of `sort_values(["date", "tipoff_local"])`. -/
def sortKey (r : OutRow) : (Bool ×ₗ String) ×ₗ (Bool ×ₗ String) :=
  toLex (naKey r.odate, naKey r.tipoff_local)

/-- The row order realized by `df.sort_values(["date", "tipoff_local"],
ascending=True)`. -/
def rowLE (a b : OutRow) : Prop :=
  sortKey a ≤ sortKey b

instance : DecidableRel rowLE := by
  unfold rowLE
  infer_instance

instance : IsTotal OutRow rowLE :=
  ⟨fun a b => le_total (sortKey a) (sortKey b)⟩

instance : IsTrans OutRow rowLE :=
  ⟨fun _ _ _ hab hbc => le_trans hab hbc⟩

/-- The normalization tail of `fetch_games` on a nonempty row list:
tipoff conversion, matchup derivation (raising `AttributeError` when a
full-name column is absent, because `df.get(col, "")` then returns the
plain string `""` and `"".fillna` does not exist), column selection, and
the sort (raising `KeyError` when no row carried a `date` key, since
`"date"` is then not a column of the frame). -/
def normalizeGames (localize : String → Option String) (rows : List RawGame) :
    Except String FetchResult :=
  if colPresent rows (·.visitorFullName) ∧ colPresent rows (·.homeFullName) then
    if colPresent rows (·.gdate) then
      .ok ⟨keepList.filter (colKept rows),
           (rows.map (mkOutRow localize rows)).insertionSort rowLE⟩
    else
      .error "KeyError: date"
  else
    .error "AttributeError: str object has no attribute fillna"

/-- Embeds `fetch_games(start_date, end_date, per_page=100)` without the cache
layer: collect pages, return the empty frame when no rows were collected,
otherwise normalize. `none` = the pagination loop did not terminate
within `fuel` iterations; `Except.error` = an uncaught pandas exception. -/
def fetch_games (localize : String → Option String)
    (respond : Request → Payload) (fuel : Nat) (sd ed : String)
    (pp : Nat := 100) : Option (Except String FetchResult) :=
  match collectGames respond sd ed pp fuel with
  | (none, _) => none
  | (some rows, _) =>
    if rows.isEmpty then some (.ok ⟨[], []⟩)
    else some (normalizeGames localize rows)

/-! ### The `st.cache_data(ttl=600)` layer -/

/-- One memo entry of `st.cache_data`: argument key
`(start_date, end_date, per_page)`, cached frame, and the time the
computation completed. -/
structure CacheEntry where
  key : String × String × Nat
  value : FetchResult
  storedAt : ℚ
deriving DecidableEq, Repr

/-- A cached entry answers a call iff its key matches and it is younger
than the 600-second time-to-live. -/
def cacheLookup (cache : List CacheEntry) (now : ℚ)
    (k : String × String × Nat) : Option FetchResult :=
  (cache.find? (fun e => decide (e.key = k ∧ now - e.storedAt < 600))).map
    (fun e => e.value)

/-- Embeds `fetch_games` behind `@st.cache_data(ttl=60*10)`: a fresh entry is
stored only when the computation succeeds; a hit returns the memoized
frame and issues no executor request. The final component counts the
executor requests of the call. -/
def fetchGamesCached (localize : String → Option String)
    (respond : Request → Payload) (fuel : Nat) (cache : List CacheEntry)
    (now : ℚ) (sd ed : String) (pp : Nat := 100) :
    Option (Except String FetchResult) × List CacheEntry × Nat :=
  match cacheLookup cache now (sd, ed, pp) with
  | some v => (some (.ok v), cache, 0)
  | none =>
    match collectGames respond sd ed pp fuel with
    | (none, reqs) => (none, cache, reqs.length)
    | (some rows, reqs) =>
      let out := if rows.isEmpty then Except.ok (⟨[], []⟩ : FetchResult)
                 else normalizeGames localize rows
      match out with
      | .ok v => (some (.ok v), ⟨(sd, ed, pp), v, now⟩ :: cache, reqs.length)
      | .error e => (some (.error e), cache, reqs.length)

/-! ### Lemmas about `safe_get` -/

/-- Threading of `last_err`: `lastErrAfter i rem le` is the value of
`last_err` after iterations `i, …, i+rem-1` run from initial value `le`. -/
def lastErrAfter {β : Type} (transport : Nat → Attempt β) :
    Nat → Nat → Option String → Option String
  | _, 0, le => le
  | i, rem + 1, le =>
    lastErrAfter transport (i + 1) rem
      (match transport i with
       | .exn m => some m
       | _ => le)

theorem lastErrAfter_eq_lastExnBefore {β : Type} (transport : Nat → Attempt β) :
    ∀ rem i, lastErrAfter transport i rem (lastExnBefore transport i) =
      lastExnBefore transport (i + rem) := by
  intro rem
  induction rem with
  | zero => intro i; rfl
  | succ n ih =>
    intro i
    have hstep :
        (match transport i with
         | .exn m => some m
         | _ => lastExnBefore transport i) = lastExnBefore transport (i + 1) := by
      simp only [lastExnBefore]
    calc lastErrAfter transport i (n + 1) (lastExnBefore transport i)
        = lastErrAfter transport (i + 1) n (lastExnBefore transport (i + 1)) := by
          simp only [lastErrAfter, hstep]
      _ = lastExnBefore transport (i + 1 + n) := ih (i + 1)
      _ = lastExnBefore transport (i + (n + 1)) := by ring_nf

/-- Exhaustion shape of the retry loop: when every attempt in the window
fails, the loop runs the whole window, sleeps once per attempt with
duration `backoff ^ attempt_index`, and ends in the `RuntimeError` state. -/
theorem safeGetLoop_all_fail {β : Type} (transport : Nat → Attempt β) (b : ℚ) :
    ∀ (remaining i : Nat) (lastErr : Option String) (sleeps : List ℚ),
      (∀ j, i ≤ j → j < i + remaining → (transport j).fails) →
      safeGetLoop transport b remaining i lastErr sleeps =
        ⟨.error (i + remaining, lastErrAfter transport i remaining lastErr),
         sleeps ++ (List.range' i remaining).map (fun j => b ^ j),
         i + remaining⟩ := by
  intro remaining
  induction remaining with
  | zero =>
    intro i lastErr sleeps _
    simp [safeGetLoop, lastErrAfter]
  | succ n ih =>
    intro i lastErr sleeps hfail
    have hi : (transport i).fails := hfail i le_rfl (by omega)
    have harith : i + 1 + n = i + (n + 1) := by omega
    have htail : ∀ j, i + 1 ≤ j → j < i + 1 + n → (transport j).fails := by
      intro j h1 h2
      exact hfail j (by omega) (by omega)
    cases htr : transport i with
    | ok body => rw [htr] at hi; exact absurd hi (by simp [Attempt.fails])
    | rate429 =>
      simp only [safeGetLoop, htr]
      rw [ih (i + 1) lastErr (sleeps ++ [b ^ i]) htail]
      simp only [lastErrAfter, htr, harith, List.range'_succ, List.map_cons,
        List.append_assoc, List.singleton_append]
    | exn m =>
      simp only [safeGetLoop, htr]
      rw [ih (i + 1) (some m) (sleeps ++ [b ^ i]) htail]
      simp only [lastErrAfter, htr, harith, List.range'_succ, List.map_cons,
        List.append_assoc, List.singleton_append]

/-- Success shape of the retry loop: when attempts `i, …, i+K-1` fail and
attempt `i+K` yields a decoded body, the loop returns that body after
exactly `K` sleeps and `K+1` attempts in the window. -/
theorem safeGetLoop_fail_then_ok {β : Type} (transport : Nat → Attempt β)
    (b : ℚ) (body : β) :
    ∀ (K remaining i : Nat) (lastErr : Option String) (sleeps : List ℚ),
      K < remaining →
      (∀ j, i ≤ j → j < i + K → (transport j).fails) →
      transport (i + K) = .ok body →
      safeGetLoop transport b remaining i lastErr sleeps =
        ⟨.ok body, sleeps ++ (List.range' i K).map (fun j => b ^ j),
         i + K + 1⟩ := by
  intro K
  induction K with
  | zero =>
    intro remaining i lastErr sleeps hlt _ hok
    obtain ⟨n, rfl⟩ : ∃ n, remaining = n + 1 := ⟨remaining - 1, by omega⟩
    simp only [Nat.add_zero] at hok
    simp [safeGetLoop, hok]
  | succ K ih =>
    intro remaining i lastErr sleeps hlt hfail hok
    obtain ⟨n, rfl⟩ : ∃ n, remaining = n + 1 := ⟨remaining - 1, by omega⟩
    have hi : (transport i).fails := hfail i le_rfl (by omega)
    have harith : i + 1 + K = i + (K + 1) := by omega
    have htail : ∀ j, i + 1 ≤ j → j < i + 1 + K → (transport j).fails := by
      intro j h1 h2
      exact hfail j (by omega) (by omega)
    have hok' : transport (i + 1 + K) = .ok body := by
      rw [harith]
      exact hok
    cases htr : transport i with
    | ok bdy => rw [htr] at hi; exact absurd hi (by simp [Attempt.fails])
    | rate429 =>
      simp only [safeGetLoop, htr]
      rw [ih n (i + 1) lastErr (sleeps ++ [b ^ i]) (by omega) htail hok']
      simp only [harith, List.range'_succ, List.map_cons, List.append_assoc,
        List.singleton_append]
    | exn m =>
      simp only [safeGetLoop, htr]
      rw [ih n (i + 1) (some m) (sleeps ++ [b ^ i]) (by omega) htail hok']
      simp only [harith, List.range'_succ, List.map_cons, List.append_assoc,
        List.singleton_append]

theorem lastErrAfter_from_zero {β : Type} (transport : Nat → Attempt β)
    (n : Nat) :
    lastErrAfter transport 0 n none = lastExnBefore transport n := by
  have h := lastErrAfter_eq_lastExnBefore transport n 0
  simpa only [lastExnBefore, Nat.zero_add] using h

/-! ### Claim C3 — retry exhaustion -/

/-- C3 (counterexample): a transport whose four attempts all fail with
HTTP 429 exhausts `safe_get`, but the raised `RuntimeError` carries
`last_err = None`: its message is the fixed string
`"Request failed after 4 tries: None"`, which contains no description of
any observed error — contradicting the claim that the terminal message
carries the last observed error's description even when the failures are
429 responses. -/
theorem retry_exhaustion_429_no_description :
    (safe_get (fun _ => Attempt.rate429 (β := Unit)) 4 (9 / 5)).result =
      .error (4, none) ∧
    failureMessage 4 none = "Request failed after 4 tries: None" := by
  constructor
  · rfl
  · rfl

/-- C3 (amended): for every transport whose attempts all fail (exception,
non-2xx status, or HTTP 429), `safe_get` makes exactly `retries` attempts
(default 4), never more, and then raises a terminal error carrying the
retry count and the description of the most recent *exception*; a 429
response never updates the recorded error, so a run whose failures are all
429s reports `None`. One backoff sleep is taken per attempt. -/
theorem retry_exhaustion {β : Type} (transport : Nat → Attempt β)
    (retries : Nat) (b : ℚ)
    (hfail : ∀ j < retries, (transport j).fails) :
    safe_get transport retries b =
      ⟨.error (retries, lastExnBefore transport retries),
       (List.range retries).map (fun j => b ^ j), retries⟩ := by
  unfold safe_get
  rw [safeGetLoop_all_fail transport b retries 0 none []
      (fun j _ h2 => hfail j (by omega))]
  simp only [Nat.zero_add, List.nil_append, List.range_eq_range',
    lastErrAfter_from_zero]

/-- C3 (witness): a transport failing with an exception then three 429s is
exhausted after exactly 4 attempts; the terminal error carries try count 4
and the exception's description. -/
theorem retry_exhaustion_witness :
    safe_get (fun j => if j = 0 then Attempt.exn (β := Unit) "boom"
      else .rate429) 4 (9 / 5) =
      ⟨.error (4, some "boom"),
       [(9 / 5 : ℚ) ^ 0, (9 / 5 : ℚ) ^ 1, (9 / 5 : ℚ) ^ 2, (9 / 5 : ℚ) ^ 3],
       4⟩ := by
  have h := retry_exhaustion
    (fun j => if j = 0 then Attempt.exn (β := Unit) "boom" else .rate429)
    4 (9 / 5) (by decide)
  rw [h]
  rfl

/-! ### Claim C4 — retry then success, backoff shape -/

/-- C4: if the transport fails (exception or 429) on attempts
`0, …, K-1` and attempt `K` yields a decodable 2xx body, with
`K < retries`, then `safe_get` returns that body immediately after
`K + 1` attempts, having slept exactly `K` times with durations
`backoff^0, …, backoff^(K-1)`; for the default base 1.8 = 9/5 these
durations are strictly increasing. -/
theorem retry_then_success_backoff {β : Type} (transport : Nat → Attempt β)
    (body : β) (K retries : Nat) (b : ℚ)
    (hK : K < retries)
    (hfail : ∀ j < K, (transport j).fails)
    (hok : transport K = .ok body) :
    safe_get transport retries b =
      ⟨.ok body, (List.range K).map (fun j => b ^ j), K + 1⟩ ∧
    ((List.range K).map (fun j => (9 / 5 : ℚ) ^ j)).Pairwise (· < ·) := by
  constructor
  · unfold safe_get
    rw [safeGetLoop_fail_then_ok transport b body K retries 0 none []
        hK (fun j _ h2 => hfail j (by omega)) (by simpa using hok)]
    simp only [Nat.zero_add, List.nil_append, List.range_eq_range']
  · rw [List.pairwise_map]
    exact (List.pairwise_lt_range K).imp
      (fun hab => pow_lt_pow_right₀ (by norm_num) hab)

/-- C4 (witness): a transport failing twice (exception then 429) and
succeeding on attempt 2 makes `safe_get` return the decoded body after 3
attempts with the two strictly increasing sleeps `1.8^0 < 1.8^1`. -/
theorem retry_then_success_backoff_witness :
    safe_get (fun j => if j = 0 then Attempt.exn "boom"
      else if j = 1 then .rate429 else .ok (42 : Nat)) 4 (9 / 5) =
      ⟨.ok 42, [(9 / 5 : ℚ) ^ 0, (9 / 5 : ℚ) ^ 1], 3⟩ ∧
    [(9 / 5 : ℚ) ^ 0, (9 / 5 : ℚ) ^ 1].Pairwise (· < ·) := by
  have h := retry_then_success_backoff
    (fun j => if j = 0 then Attempt.exn "boom"
      else if j = 1 then .rate429 else .ok (42 : Nat))
    42 2 4 (9 / 5) (by omega) (by decide) (by decide)
  refine ⟨h.1.trans ?_, ?_⟩
  · rfl
  · norm_num

/-! ### Chains of pages and the pagination lemmas -/

/-- The upstream serves the page list `ps` starting from cursor `c`: each
page is the response to its cursor's request, each non-final page names
the next page's cursor in its metadata, and the final page has no
`next_cursor`. -/
inductive ChainServes (respond : Request → Payload) (sd ed : String)
    (pp : Nat) : Int → List Payload → Prop
  | last {c : Int} {p : Payload} :
      respond ⟨sd, ed, pp, c⟩ = p → nextCursorOf p = none →
      ChainServes respond sd ed pp c [p]
  | step {c c' : Int} {p : Payload} {ps : List Payload} :
      respond ⟨sd, ed, pp, c⟩ = p → nextCursorOf p = some c' →
      ChainServes respond sd ed pp c' ps →
      ChainServes respond sd ed pp c (p :: ps)

/-- The cursor of each request a chain of pages induces: the start cursor,
then each page's `next_cursor` while present. -/
def chainCursors (c : Int) : List Payload → List Int
  | [] => []
  | p :: ps =>
    c :: (match nextCursorOf p with
          | none => []
          | some c' => chainCursors c' ps)

theorem chainCursors_length {respond : Request → Payload} {sd ed : String}
    {pp : Nat} {c : Int} {ps : List Payload}
    (h : ChainServes respond sd ed pp c ps) :
    (chainCursors c ps).length = ps.length := by
  induction h with
  | last hresp hnone => simp [chainCursors, *]
  | step hresp hnext _ ih => simp [chainCursors, hnext, ih]

/-- Running the pagination loop against a served chain: the loop
terminates (given fuel for each page), accumulates exactly the
concatenation of the pages' data in order, and issues exactly one request
per page, at the chain's cursors. -/
theorem collectLoop_chain (respond : Request → Payload) (sd ed : String)
    (pp : Nat) {c : Int} {ps : List Payload}
    (h : ChainServes respond sd ed pp c ps) :
    ∀ (fuel : Nat) (rows : List RawGame) (reqs : List Request),
      ps.length ≤ fuel →
      collectLoop respond sd ed pp fuel c rows reqs =
        (some (rows ++ (ps.map dataOf).flatten),
         reqs ++ (chainCursors c ps).map (fun k => ⟨sd, ed, pp, k⟩)) := by
  induction h with
  | @last c p hresp hnone =>
    intro fuel rows reqs hfuel
    obtain ⟨f, rfl⟩ : ∃ f, fuel = f + 1 :=
      ⟨fuel - 1, by simp only [List.length_cons, List.length_nil] at hfuel; omega⟩
    simp only [collectLoop, hresp, hnone, chainCursors, List.map_cons,
      List.map_nil, List.flatten_cons, List.flatten_nil, List.append_nil]
  | @step c c' p ps hresp hnext _ ih =>
    intro fuel rows reqs hfuel
    obtain ⟨f, rfl⟩ : ∃ f, fuel = f + 1 :=
      ⟨fuel - 1, by simp only [List.length_cons] at hfuel; omega⟩
    have hf : ps.length ≤ f := by
      simp only [List.length_cons] at hfuel
      omega
    simp only [collectLoop, hresp, hnext]
    have hrec := ih f (rows ++ dataOf p)
      (reqs ++ [(⟨sd, ed, pp, c⟩ : Request)]) hf
    rw [hrec]
    simp [chainCursors, hnext, List.append_assoc]

/-! ### Claim C1 — pagination completeness -/

/-- C1: against an upstream serving `N` pages whose metadata cursors
chain from 0 to `null`, `fetch_games`'s collection loop issues exactly
`N` executor requests — the first at cursor 0, each subsequent at the
previous page's `next_cursor` — and accumulates exactly the concatenation
of the pages' data rows in upstream order; when the upstream serves each
row at most once overall, the accumulated collection has no duplicates. -/
theorem pagination_completeness (respond : Request → Payload)
    (sd ed : String) (pp fuel : Nat) (ps : List Payload)
    (h : ChainServes respond sd ed pp 0 ps) (hfuel : ps.length ≤ fuel) :
    (collectGames respond sd ed pp fuel).1 = some ((ps.map dataOf).flatten) ∧
    (collectGames respond sd ed pp fuel).2 =
      (chainCursors 0 ps).map (fun k => ⟨sd, ed, pp, k⟩) ∧
    (collectGames respond sd ed pp fuel).2.length = ps.length ∧
    ((∀ p ∈ ps, (dataOf p).Nodup) ∧ ps.Pairwise (fun p q => (dataOf p).Disjoint (dataOf q)) →
      ((ps.map dataOf).flatten).Nodup) := by
  have hrun := collectLoop_chain respond sd ed pp h fuel [] [] hfuel
  unfold collectGames
  rw [hrun]
  refine ⟨by simp, by simp, ?_, ?_⟩
  · simp [chainCursors_length h]
  · rintro ⟨hnodup, hdisj⟩
    rw [List.nodup_flatten]
    constructor
    · intro l hl
      obtain ⟨p, hp, rfl⟩ := List.mem_map.mp hl
      exact hnodup p hp
    · rw [List.pairwise_map]
      exact hdisj

/-- A concrete game row used by witnesses. -/
def wG1 : RawGame :=
  ⟨some (some 1), some (some "2024-01-01"), none, none, none,
   some (some "Lakers"), some (some "LAL"), none,
   some (some "Celtics"), some (some "BOS"), none⟩

/-- A second concrete game row used by witnesses. -/
def wG2 : RawGame :=
  ⟨some (some 2), some (some "2024-01-02"), none, none, none,
   some (some "Bucks"), some (some "MIL"), none,
   some (some "Heat"), some (some "MIA"), none⟩

/-- A third concrete game row used by witnesses. -/
def wG3 : RawGame :=
  ⟨some (some 3), some (some "2024-01-03"), none, none, none,
   some (some "Suns"), some (some "PHX"), none,
   some (some "Nuggets"), some (some "DEN"), none⟩

/-- First page of the two-page witness upstream: two rows,
`next_cursor = 7`. -/
def wPage0 : Payload := ⟨some [wG1, wG2], some (some ⟨some 7⟩)⟩

/-- Second page of the two-page witness upstream: one row, no
`next_cursor`. -/
def wPage1 : Payload := ⟨some [wG3], some (some ⟨none⟩)⟩

/-- The two-page witness upstream: page 0 at cursor 0, page 1 at every
other cursor (only cursor 7 is ever requested next). -/
def wRespond : Request → Payload :=
  fun req => if req.cursor = 0 then wPage0 else wPage1

theorem wRespond_chain :
    ChainServes wRespond "2024-01-01" "2024-01-07" 100 0 [wPage0, wPage1] :=
  ChainServes.step rfl rfl (ChainServes.last rfl rfl)

/-- C1 (witness): against the concrete two-page upstream, the collection
loop gathers the three rows in upstream order and issues exactly two
requests, at cursors 0 and 7. -/
theorem pagination_completeness_witness :
    (collectGames wRespond "2024-01-01" "2024-01-07" 100 5).1 =
      some [wG1, wG2, wG3] ∧
    (collectGames wRespond "2024-01-01" "2024-01-07" 100 5).2 =
      [⟨"2024-01-01", "2024-01-07", 100, 0⟩,
       ⟨"2024-01-01", "2024-01-07", 100, 7⟩] ∧
    (collectGames wRespond "2024-01-01" "2024-01-07" 100 5).2.length = 2 := by
  have h := pagination_completeness wRespond "2024-01-01" "2024-01-07" 100 5
    [wPage0, wPage1] wRespond_chain (by simp)
  exact ⟨h.1.trans (by rfl), (h.2.1).trans (by rfl), h.2.2.1.trans (by rfl)⟩

/-! ### Claim C2 — cursor no-repeat invariant -/

/-- A misbehaving upstream that always answers with `next_cursor = 0`. -/
def loopRespond : Request → Payload :=
  fun _ => ⟨some [], some (some ⟨some 0⟩)⟩

/-- C2 (counterexample): against an upstream that always returns the
already-seen `next_cursor = 0`, the pagination loop requests cursor 0 on
every iteration — the same cursor value is sent in several requests (the
trace of the first three iterations is three requests at cursor 0, with
the run still unterminated), contradicting the claimed invariant that a
cursor is never requested twice in one collection run. -/
theorem cursor_no_repeat_cex :
    (collectGames loopRespond "2024-01-01" "2024-01-07" 100 3).2 =
      [⟨"2024-01-01", "2024-01-07", 100, 0⟩,
       ⟨"2024-01-01", "2024-01-07", 100, 0⟩,
       ⟨"2024-01-01", "2024-01-07", 100, 0⟩] ∧
    ¬ ((collectGames loopRespond "2024-01-01" "2024-01-07" 100 3).2.map
        (fun r => r.cursor)).Nodup ∧
    (collectGames loopRespond "2024-01-01" "2024-01-07" 100 3).1 = none := by
  refine ⟨rfl, by decide, rfl⟩

/-- C2 (amended): `fetch_games` trusts the server's `next_cursor`
unconditionally, so within one collection run the requested cursors are
exactly the chain the server dictates (0, then each page's
`next_cursor`); no cursor is requested twice provided that server-dictated
chain is duplicate-free. A server that returns an already-seen cursor
makes the loop request it again (the loop is guarded only by a null
`next_cursor`, not by cursor memory). -/
theorem cursor_no_repeat (respond : Request → Payload) (sd ed : String)
    (pp fuel : Nat) (ps : List Payload)
    (h : ChainServes respond sd ed pp 0 ps) (hfuel : ps.length ≤ fuel)
    (hnodup : (chainCursors 0 ps).Nodup) :
    ((collectGames respond sd ed pp fuel).2.map (fun r => r.cursor)) =
      chainCursors 0 ps ∧
    ((collectGames respond sd ed pp fuel).2.map (fun r => r.cursor)).Nodup := by
  have hrun := collectLoop_chain respond sd ed pp h fuel [] [] hfuel
  have htrace : ((collectGames respond sd ed pp fuel).2.map
      (fun r => r.cursor)) = chainCursors 0 ps := by
    unfold collectGames
    rw [hrun]
    dsimp only
    rw [List.nil_append, List.map_map]
    exact List.map_id _
  exact ⟨htrace, by rw [htrace]; exact hnodup⟩

/-- C2 (witness): against the concrete two-page upstream, the cursors
requested are exactly 0 then 7, with no repetition. -/
theorem cursor_no_repeat_witness :
    ((collectGames wRespond "2024-01-01" "2024-01-07" 100 5).2.map
      (fun r => r.cursor)) = [0, 7] ∧
    ((collectGames wRespond "2024-01-01" "2024-01-07" 100 5).2.map
      (fun r => r.cursor)).Nodup := by
  have h := cursor_no_repeat wRespond "2024-01-01" "2024-01-07" 100 5
    [wPage0, wPage1] wRespond_chain (by simp) (by decide)
  exact ⟨h.1.trans (by rfl), h.2⟩

/-! ### Claim C9 — malformed-page tolerance at the pagination boundary -/

/-- C9: a page without a `data` field contributes zero rows; a page whose
`meta` field is missing, null, or lacks `next_cursor` has no next cursor,
so the collection loop terminates normally on it as on a last page —
issuing that one request and keeping the rows collected so far plus the
page's (possibly empty) data. -/
theorem malformed_page_tolerance (p : Payload) (respond : Request → Payload)
    (sd ed : String) (pp fuel : Nat) (c : Int) (rows : List RawGame)
    (reqs : List Request)
    (hmeta : p.meta = none ∨ p.meta = some none ∨
      ∃ m, p.meta = some (some m) ∧ m.next_cursor = none)
    (hserve : respond ⟨sd, ed, pp, c⟩ = p) :
    (p.data = none → dataOf p = []) ∧
    nextCursorOf p = none ∧
    collectLoop respond sd ed pp (fuel + 1) c rows reqs =
      (some (rows ++ dataOf p), reqs ++ [⟨sd, ed, pp, c⟩]) := by
  have hnext : nextCursorOf p = none := by
    rcases hmeta with h | h | ⟨m, h, hm⟩
    · simp [nextCursorOf, h]
    · simp [nextCursorOf, h]
    · simp [nextCursorOf, h, hm]
  refine ⟨?_, hnext, ?_⟩
  · intro hd
    simp [dataOf, hd]
  · simp only [collectLoop, hserve, hnext]

/-- C9 (witness): a page missing both `data` and `meta` contributes no
rows and ends the run after its single request. -/
theorem malformed_page_tolerance_witness :
    dataOf ⟨none, none⟩ = [] ∧
    nextCursorOf ⟨none, none⟩ = none ∧
    collectLoop (fun _ => (⟨none, none⟩ : Payload)) "s" "e" 100 1 0 [] [] =
      (some [], [⟨"s", "e", 100, 0⟩]) := by
  have h := malformed_page_tolerance ⟨none, none⟩
    (fun _ => (⟨none, none⟩ : Payload)) "s" "e" 100 0 0 [] []
    (Or.inl rfl) rfl
  exact ⟨h.1 rfl, h.2.1, (h.2.2).trans (by rfl)⟩

/-! ### Anatomy of a successful `fetch_games` run -/

/-- Every successful `fetch_games` run is either the empty frame (no rows
collected) or the normalized form of a nonempty collected row list on
which the full-name and `date` columns exist. -/
theorem fetch_games_ok_cases (localize : String → Option String)
    (respond : Request → Payload) (fuel : Nat) (sd ed : String) (pp : Nat)
    (res : FetchResult)
    (hrun : fetch_games localize respond fuel sd ed pp = some (.ok res)) :
    (res = ⟨[], []⟩ ∧ (collectGames respond sd ed pp fuel).1 = some []) ∨
    ∃ rows, (collectGames respond sd ed pp fuel).1 = some rows ∧
      rows ≠ [] ∧
      colPresent rows (fun r => r.visitorFullName) ∧
      colPresent rows (fun r => r.homeFullName) ∧
      colPresent rows (fun r => r.gdate) ∧
      res = ⟨keepList.filter (colKept rows),
             (rows.map (mkOutRow localize rows)).insertionSort rowLE⟩ := by
  unfold fetch_games at hrun
  rcases hcg : collectGames respond sd ed pp fuel with ⟨ores, reqs⟩
  rw [hcg] at hrun
  cases ores with
  | none => exact absurd hrun (by simp)
  | some rows =>
    dsimp only at hrun
    by_cases hemp : rows.isEmpty
    · left
      rw [if_pos hemp] at hrun
      have hres : Except.ok (ε := String) (⟨[], []⟩ : FetchResult) = .ok res := by
        exact Option.some.inj hrun
      refine ⟨(Except.ok.inj hres).symm, ?_⟩
      simp [hcg, List.isEmpty_iff.mp hemp]
    · right
      rw [if_neg hemp] at hrun
      have hnorm : normalizeGames localize rows = .ok res :=
        Option.some.inj hrun
      unfold normalizeGames at hnorm
      by_cases hfull : colPresent rows (fun r => r.visitorFullName) ∧
          colPresent rows (fun r => r.homeFullName)
      · rw [if_pos hfull] at hnorm
        by_cases hdate : colPresent rows (fun r => r.gdate)
        · rw [if_pos hdate] at hnorm
          refine ⟨rows, by simp [hcg], by simpa using hemp, hfull.1, hfull.2,
            hdate, ?_⟩
          exact (Except.ok.inj hnorm).symm
        · rw [if_neg hdate] at hnorm
          exact absurd hnorm (by simp)
      · rw [if_neg hfull] at hnorm
        exact absurd hnorm (by simp)

/-- Every row a terminating collection run accumulates beyond its initial
accumulator comes from the `data` of some response of the upstream, at
some cursor, for the run's query parameters. -/
theorem collectLoop_mem_from (respond : Request → Payload) (sd ed : String)
    (pp : Nat) :
    ∀ (fuel : Nat) (c : Int) (rows : List RawGame) (reqs : List Request)
      (out : List RawGame) (reqs' : List Request),
      collectLoop respond sd ed pp fuel c rows reqs = (some out, reqs') →
      ∀ r ∈ out, r ∈ rows ∨ ∃ c', r ∈ dataOf (respond ⟨sd, ed, pp, c'⟩) := by
  intro fuel
  induction fuel with
  | zero =>
    intro c rows reqs out reqs' heq
    exact absurd heq (by simp [collectLoop])
  | succ f ih =>
    intro c rows reqs out reqs' heq r hr
    simp only [collectLoop] at heq
    cases hnc : nextCursorOf (respond ⟨sd, ed, pp, c⟩) with
    | none =>
      rw [hnc] at heq
      simp only [Prod.mk.injEq, Option.some.injEq] at heq
      rw [← heq.1] at hr
      rcases List.mem_append.mp hr with hl | hd
      · exact Or.inl hl
      · exact Or.inr ⟨c, hd⟩
    | some c' =>
      rw [hnc] at heq
      rcases ih c' (rows ++ dataOf (respond ⟨sd, ed, pp, c⟩))
          (reqs ++ [⟨sd, ed, pp, c⟩]) out reqs' heq r hr with hl | hd
      · rcases List.mem_append.mp hl with h1 | h2
        · exact Or.inl h1
        · exact Or.inr ⟨c, h2⟩
      · exact Or.inr hd

/-! ### Claim C6 — date-range containment -/

/-- A game the upstream serves outside the queried range. -/
def oobGame : RawGame :=
  ⟨some (some 9), some (some "2030-05-05"), none, none, none,
   some (some "Suns"), some (some "PHX"), none,
   some (some "Nuggets"), some (some "DEN"), none⟩

/-- A misbehaving upstream returning `oobGame` as its single page for any
query parameters. -/
def oobRespond : Request → Payload :=
  fun _ => ⟨some [oobGame], some (some ⟨none⟩)⟩

/-- C6 (counterexample): `fetch_games` does no date filtering, so a
server that ignores the query parameters and returns a game dated
2030-05-05 for the range [2024-01-01, 2024-01-07] makes `fetch_games`
return a non-empty result containing a record whose date lies outside
the requested range — contradicting the claim's quantification over
every sequence of upstream responses. -/
theorem date_containment_cex :
    fetch_games (fun _ => none) oobRespond 1 "2024-01-01" "2024-01-07" 100 =
      some (.ok ⟨["id", "date", "tipoff_local", "visitor_team.abbreviation",
                  "home_team.abbreviation", "matchup"],
        [⟨some 9, some "2030-05-05", none, none, none, some "PHX", none,
          some "DEN", none, "Suns @ Nuggets"⟩]⟩) ∧
    ¬ (("2030-05-05" : String) ≤ "2024-01-07") := by
  constructor
  · rfl
  · simp only [String.le_iff_toList_le]
    decide

/-- C6 (amended): `fetch_games` returns either an empty result or records
drawn verbatim from the upstream's pages, so whenever the upstream honors
the `start_date`/`end_date` query parameters — i.e. every served row's
date lies within [start, end] — every record of the result has its date
within [start, end]. The code itself performs no date filtering, so the
containment cannot hold against an upstream that serves out-of-range
rows. -/
theorem date_containment (localize : String → Option String)
    (respond : Request → Payload) (fuel : Nat) (sd ed : String) (pp : Nat)
    (res : FetchResult)
    (hrun : fetch_games localize respond fuel sd ed pp = some (.ok res))
    (hupstream : ∀ (c : Int) r, r ∈ dataOf (respond ⟨sd, ed, pp, c⟩) →
      ∀ d, r.gdate.join = some d → sd ≤ d ∧ d ≤ ed) :
    ∀ orow ∈ res.rows, ∀ d, orow.odate = some d → sd ≤ d ∧ d ≤ ed := by
  rcases fetch_games_ok_cases localize respond fuel sd ed pp res hrun with
    ⟨hres, _⟩ | ⟨rows, hcg, _, _, _, _, hres⟩
  · rw [hres]
    intro orow h
    exact absurd h (by simp)
  · rw [hres]
    intro orow hmem d hod
    have hmem' : orow ∈ rows.map (mkOutRow localize rows) :=
      (List.mem_insertionSort rowLE).mp hmem
    obtain ⟨r, hrmem, rfl⟩ := List.mem_map.mp hmem'
    have hodate : (mkOutRow localize rows r).odate = r.gdate.join := rfl
    rcases hpair : collectGames respond sd ed pp fuel with ⟨ores, reqs⟩
    rw [hpair] at hcg
    have hloop : collectLoop respond sd ed pp fuel 0 [] [] = (some rows, reqs) := by
      have : ores = some rows := hcg
      rw [← this, ← hpair]
      rfl
    rcases collectLoop_mem_from respond sd ed pp fuel 0 [] [] rows reqs hloop
        r hrmem with hnil | ⟨c', hdata⟩
    · exact absurd hnil (by simp)
    · exact hupstream c' r hdata d (by rw [← hodate]; exact hod)

/-- An honest single-page upstream whose one game lies inside the queried
week. -/
def inRangeRespond : Request → Payload :=
  fun _ => ⟨some [wG1], some (some ⟨none⟩)⟩

/-- C6 (witness): against the honest single-page upstream, the single
record's date 2024-01-01 lies within [2024-01-01, 2024-01-07]. -/
theorem date_containment_witness :
    ("2024-01-01" : String) ≤ "2024-01-01" ∧
    ("2024-01-01" : String) ≤ "2024-01-07" := by
  have hup : ∀ (c : Int) r,
      r ∈ dataOf (inRangeRespond ⟨"2024-01-01", "2024-01-07", 100, c⟩) →
      ∀ d, r.gdate.join = some d →
        ("2024-01-01" : String) ≤ d ∧ d ≤ "2024-01-07" := by
    intro c r hr d hd
    have hr' : r = wG1 := by
      simpa [inRangeRespond, dataOf] using hr
    subst hr'
    have hd' : d = "2024-01-01" := by
      simpa [wG1] using hd.symm
    subst hd'
    simp only [String.le_iff_toList_le]
    decide
  have h := date_containment (fun _ => none) inRangeRespond 1
    "2024-01-01" "2024-01-07" 100
    ⟨["id", "date", "tipoff_local", "visitor_team.abbreviation",
      "home_team.abbreviation", "matchup"],
     [⟨some 1, some "2024-01-01", none, none, none, some "LAL", none,
       some "BOS", none, "Lakers @ Celtics"⟩]⟩ (by rfl) hup
  exact h ⟨some 1, some "2024-01-01", none, none, none, some "LAL", none,
    some "BOS", none, "Lakers @ Celtics"⟩ (by simp) "2024-01-01" rfl

/-! ### Claim C7 — missing-name resilience -/

/-- A game entry carrying no team objects at all: neither full names nor
abbreviations appear anywhere in the page. -/
def noNameGame : RawGame :=
  ⟨some (some 5), some (some "2024-01-01"), none, none, none,
   none, none, none, none, none, none⟩

/-- An upstream whose single page's rows all lack the team full-name key
paths, so `json_normalize` produces no full-name columns. -/
def noNameRespond : Request → Payload :=
  fun _ => ⟨some [noNameGame], some (some ⟨none⟩)⟩

/-- A game entry whose team objects carry `full_name: null`: the columns
exist in the normalized frame but the cells are null. -/
def nullNameGame : RawGame :=
  ⟨some (some 6), some (some "2024-01-02"), none, none, none,
   some none, none, none, some none, none, none⟩

/-- An upstream serving `nullNameGame` as its single page. -/
def nullNameRespond : Request → Payload :=
  fun _ => ⟨some [nullNameGame], some (some ⟨none⟩)⟩

/-- C7 (code bug): when the full-name field is absent from every row of
the response, `df.get("visitor_team.full_name", "")` returns the plain
string `""` instead of a column, and `"".fillna` raises
`AttributeError` — `fetch_games` fails instead of producing `" @ "`,
although the row operation the claim describes would have produced
`" @ "`. By contrast, a row whose full-name keys are present but null
(so the columns exist) does yield the matchup `" @ "` without failing. -/
theorem missing_name_attribute_error :
    fetch_games (fun _ => none) noNameRespond 1
      "2024-01-01" "2024-01-07" 100 =
      some (.error "AttributeError: str object has no attribute fillna") ∧
    matchupOf noNameGame = " @ " ∧
    fetch_games (fun _ => none) nullNameRespond 1
      "2024-01-01" "2024-01-07" 100 =
      some (.ok ⟨["id", "date", "tipoff_local", "matchup"],
        [⟨some 6, some "2024-01-02", none, none, none, none, none, none,
          none, " @ "⟩]⟩) := by
  refine ⟨rfl, rfl, rfl⟩

/-! ### Claim C8 — sort order -/

theorem rowLE_date_le {a b : OutRow} (hab : rowLE a b) :
    naKey a.odate ≤ naKey b.odate := by
  unfold rowLE sortKey at hab
  rcases (Prod.Lex.le_iff _ _).mp hab with hlt | ⟨heq, _⟩
  · exact le_of_lt hlt
  · exact le_of_eq heq

/-- C8: every successful `fetch_games` result is sorted ascending with
respect to the `sort_values(["date", "tipoff_local"])` order — primarily
by the `date` string, secondarily by the localized tipoff string, missing
values last (a record lacking a tipoff time is ordered among its date
group by the date key, after the records that have tipoffs) — and its
row set is exactly (a permutation of) the normalized collected rows. -/
theorem sort_order (localize : String → Option String)
    (respond : Request → Payload) (fuel : Nat) (sd ed : String) (pp : Nat)
    (res : FetchResult)
    (hrun : fetch_games localize respond fuel sd ed pp = some (.ok res)) :
    res.rows.Sorted rowLE ∧
    res.rows.Sorted (fun a b => naKey a.odate ≤ naKey b.odate) ∧
    (∀ rows, (collectGames respond sd ed pp fuel).1 = some rows → rows ≠ [] →
      res.rows.Perm (rows.map (mkOutRow localize rows))) := by
  rcases fetch_games_ok_cases localize respond fuel sd ed pp res hrun with
    ⟨hres, hcg0⟩ | ⟨rows, hcg, _, _, _, _, hres⟩
  · refine ⟨by rw [hres]; exact List.sorted_nil,
      by rw [hres]; exact List.sorted_nil, ?_⟩
    intro rows' hcg' hne'
    rw [hcg0] at hcg'
    exact absurd (Option.some.inj hcg').symm hne'
  · refine ⟨?_, ?_, ?_⟩
    · rw [hres]
      exact List.sorted_insertionSort rowLE _
    · rw [hres]
      exact (List.sorted_insertionSort rowLE _).imp (fun h => rowLE_date_le h)
    · intro rows' hcg' _
      rw [hcg] at hcg'
      obtain rfl : rows = rows' := Option.some.inj hcg'
      rw [hres]
      exact List.perm_insertionSort rowLE _

/-- Unsorted three-game page: dates and tipoffs out of order. -/
def sG1 : RawGame :=
  ⟨some (some 11), some (some "2024-01-02"), some (some "2024-01-02 18:00"),
   none, none, some (some "A"), some (some "AA"), none,
   some (some "B"), some (some "BB"), none⟩

/-- Second unsorted game: earlier date, later tipoff. -/
def sG2 : RawGame :=
  ⟨some (some 12), some (some "2024-01-01"), some (some "2024-01-01 20:00"),
   none, none, some (some "C"), some (some "CC"), none,
   some (some "D"), some (some "DD"), none⟩

/-- Third unsorted game: earliest date-tipoff pair, listed last. -/
def sG3 : RawGame :=
  ⟨some (some 13), some (some "2024-01-01"), some (some "2024-01-01 17:00"),
   none, none, some (some "E"), some (some "EE"), none,
   some (some "F"), some (some "FF"), none⟩

/-- Upstream serving the unsorted three-game page. -/
def unsortedRespond : Request → Payload :=
  fun _ => ⟨some [sG1, sG2, sG3], some (some ⟨none⟩)⟩

/-- C8 (witness): running `fetch_games` on the concrete unsorted
three-game page (timezone localization taken as the identity) yields a
row list sorted in the `sort_values` order and a permutation of the
normalized input rows. -/
theorem sort_order_witness :
    (([sG1, sG2, sG3].map (mkOutRow some [sG1, sG2, sG3])).insertionSort
      rowLE).Sorted rowLE ∧
    (([sG1, sG2, sG3].map (mkOutRow some [sG1, sG2, sG3])).insertionSort
      rowLE).Perm ([sG1, sG2, sG3].map (mkOutRow some [sG1, sG2, sG3])) := by
  have h := sort_order some unsortedRespond 1 "2024-01-01" "2024-01-07" 100
    ⟨keepList.filter (colKept [sG1, sG2, sG3]),
     ([sG1, sG2, sG3].map (mkOutRow some [sG1, sG2, sG3])).insertionSort rowLE⟩
    (by rfl)
  exact ⟨h.1, h.2.2 [sG1, sG2, sG3] (by rfl) (by simp)⟩

/-! ### Claim C10 — output-column invariant -/

/-- C10: for every non-empty successful `fetch_games` result, the columns
are exactly the members of the fixed `keep` list present in the
normalized data, in the `keep` list's order (a sublist of it);
`tipoff_local` and `matchup` are always among them; when the upstream
provides no `datetime` field, every row's `tipoff_local` cell is null;
and a `keep`-listed column absent upstream is omitted from the result
rather than filled with a default. -/
theorem output_columns (localize : String → Option String)
    (respond : Request → Payload) (fuel : Nat) (sd ed : String) (pp : Nat)
    (res : FetchResult) (rows : List RawGame)
    (hrun : fetch_games localize respond fuel sd ed pp = some (.ok res))
    (hne : res.rows ≠ [])
    (hcg : (collectGames respond sd ed pp fuel).1 = some rows) :
    res.cols = keepList.filter (colKept rows) ∧
    "tipoff_local" ∈ res.cols ∧
    "matchup" ∈ res.cols ∧
    (¬ colPresent rows (fun r => r.gdatetime) →
      ∀ orow ∈ res.rows, orow.tipoff_local = none) ∧
    (∀ col ∈ keepList, colKept rows col = false → col ∉ res.cols) ∧
    res.cols.Sublist keepList := by
  rcases fetch_games_ok_cases localize respond fuel sd ed pp res hrun with
    ⟨hres, _⟩ | ⟨rows', hcg', _, _, _, _, hres⟩
  · rw [hres] at hne
    exact absurd rfl hne
  · rw [hcg] at hcg'
    obtain rfl : rows = rows' := Option.some.inj hcg'
    refine ⟨by rw [hres], ?_, ?_, ?_, ?_, ?_⟩
    · rw [hres]
      exact List.mem_filter.mpr ⟨by decide, rfl⟩
    · rw [hres]
      exact List.mem_filter.mpr ⟨by decide, rfl⟩
    · intro hnodt orow hmem
      rw [hres] at hmem
      have hmem' : orow ∈ rows.map (mkOutRow localize rows) :=
        (List.mem_insertionSort rowLE).mp hmem
      obtain ⟨r, _, rfl⟩ := List.mem_map.mp hmem'
      show tipoffCell localize rows r = none
      unfold tipoffCell
      rw [if_neg hnodt]
    · intro col _ hfalse hmem
      rw [hres] at hmem
      have := (List.mem_filter.mp hmem).2
      rw [hfalse] at this
      exact absurd this (by simp)
    · rw [hres]
      exact List.filter_sublist keepList

/-- C10 (witness): for the honest single-page upstream of `wG1` (a row
with no `datetime`, `status`, `postseason` or score fields), the result's
columns are exactly the present `keep` columns in order, `tipoff_local`
and `matchup` included, the tipoff cell is null, and the absent `status`
column is omitted. -/
theorem output_columns_witness :
    (⟨["id", "date", "tipoff_local", "visitor_team.abbreviation",
       "home_team.abbreviation", "matchup"],
      [⟨some 1, some "2024-01-01", none, none, none, some "LAL", none,
        some "BOS", none, "Lakers @ Celtics"⟩]⟩ : FetchResult).cols =
      keepList.filter (colKept [wG1]) ∧
    "tipoff_local" ∈ ["id", "date", "tipoff_local",
      "visitor_team.abbreviation", "home_team.abbreviation", "matchup"] ∧
    "matchup" ∈ ["id", "date", "tipoff_local",
      "visitor_team.abbreviation", "home_team.abbreviation", "matchup"] ∧
    ("status" : String) ∉ ["id", "date", "tipoff_local",
      "visitor_team.abbreviation", "home_team.abbreviation", "matchup"] := by
  have h := output_columns (fun _ => none) inRangeRespond 1
    "2024-01-01" "2024-01-07" 100
    ⟨["id", "date", "tipoff_local", "visitor_team.abbreviation",
      "home_team.abbreviation", "matchup"],
     [⟨some 1, some "2024-01-01", none, none, none, some "LAL", none,
       some "BOS", none, "Lakers @ Celtics"⟩]⟩ [wG1]
    (by rfl) (by simp) (by rfl)
  exact ⟨h.1, h.2.1, h.2.2.1, h.2.2.2.2.1 "status" (by decide) (by decide)⟩

/-! ### Claim C5 — cache idempotence -/

/-- C5: when a first `fetch_games` call misses the cache and computes a
frame successfully at time `t0`, a second call with identical
`(start_date, end_date, per_page)` at any time within the 600-second
window returns the same frame, leaves the cache unchanged, and issues
zero executor requests. -/
theorem cache_idempotence (localize : String → Option String)
    (respond : Request → Payload) (fuel : Nat) (cache : List CacheEntry)
    (t0 t1 : ℚ) (sd ed : String) (pp : Nat) (res : FetchResult)
    (cache1 : List CacheEntry) (n1 : Nat)
    (hmiss : cacheLookup cache t0 (sd, ed, pp) = none)
    (hfirst : fetchGamesCached localize respond fuel cache t0 sd ed pp =
      (some (.ok res), cache1, n1))
    (hwin : t1 - t0 < 600) :
    fetchGamesCached localize respond fuel cache1 t1 sd ed pp =
      (some (.ok res), cache1, 0) := by
  unfold fetchGamesCached at hfirst
  rw [hmiss] at hfirst
  rcases hcg : collectGames respond sd ed pp fuel with ⟨ores, reqs⟩
  rw [hcg] at hfirst
  cases ores with
  | none =>
    dsimp only at hfirst
    exact absurd hfirst (by simp)
  | some rows =>
    dsimp only at hfirst
    cases hout : (if rows.isEmpty then Except.ok (⟨[], []⟩ : FetchResult)
        else normalizeGames localize rows) with
    | error e =>
      rw [hout] at hfirst
      exact absurd hfirst (by simp)
    | ok v =>
      rw [hout] at hfirst
      simp only [Prod.mk.injEq, Option.some.injEq, Except.ok.injEq] at hfirst
      obtain ⟨rfl, hc1, _⟩ := hfirst
      unfold fetchGamesCached
      have hhit : cacheLookup cache1 t1 (sd, ed, pp) = some v := by
        rw [← hc1]
        simp [cacheLookup, List.find?, hwin]
      rw [hhit]

/-- C5 (witness): a concrete first call at time 0 on a cold cache against
the honest single-page upstream computes the frame with one executor
request; the second call at time 10 (inside the 10-minute window) returns
the same frame from the cache with zero requests. -/
theorem cache_idempotence_witness :
    fetchGamesCached (fun _ => none) inRangeRespond 1
      [⟨("2024-01-01", "2024-01-07", 100),
        ⟨["id", "date", "tipoff_local", "visitor_team.abbreviation",
          "home_team.abbreviation", "matchup"],
         [⟨some 1, some "2024-01-01", none, none, none, some "LAL", none,
           some "BOS", none, "Lakers @ Celtics"⟩]⟩, 0⟩]
      10 "2024-01-01" "2024-01-07" 100 =
      (some (.ok ⟨["id", "date", "tipoff_local",
          "visitor_team.abbreviation", "home_team.abbreviation", "matchup"],
        [⟨some 1, some "2024-01-01", none, none, none, some "LAL", none,
          some "BOS", none, "Lakers @ Celtics"⟩]⟩),
       [⟨("2024-01-01", "2024-01-07", 100),
         ⟨["id", "date", "tipoff_local", "visitor_team.abbreviation",
           "home_team.abbreviation", "matchup"],
          [⟨some 1, some "2024-01-01", none, none, none, some "LAL", none,
            some "BOS", none, "Lakers @ Celtics"⟩]⟩, 0⟩], 0) := by
  exact cache_idempotence (fun _ => none) inRangeRespond 1 [] 0 10
    "2024-01-01" "2024-01-07" 100 _ _ 1 (by rfl) (by rfl) (by norm_num)

end NBAWeekly
